import Mathlib

/-!
Verification of `collector/kernel/cgroup_prober.cc`.

We give a shallow embedding of the cgroup prober:
* the directory walker `trigger_existing_cgroup_probe` over a rose-tree
  model of the filesystem (each node carries the outcomes of `opendir`,
  the marker-file `ifstream` open, and `closedir`),
* the mountpoint locators `find_cgroup_v1_mountpoint` / `find_cgroup_v2_mountpoint`
  over a `stat` oracle,
* the constructor `CgroupProber::CgroupProber` as a trace of abstract actions,
* C++ `std::string` lexicographic comparison for the kernel-version gate.
-/

/-- The `d_type` field reported by `readdir` for a directory entry. -/
inductive DType where
  | dir      -- DT_DIR
  | reg      -- DT_REG
  | lnk      -- DT_LNK
  | unknown  -- DT_UNKNOWN
  | other
deriving DecidableEq, Repr

/-- Per-directory outcomes of the three fallible syscalls the walker performs:
`opendir`, opening the marker file (`std::ifstream`), and `closedir`. -/
structure NodeInfo where
  name : String
  openOk : Bool
  markerOk : Bool
  closeOk : Bool
deriving DecidableEq, Repr

/-- A directory in the filesystem: its `NodeInfo` and its `readdir` listing,
each entry tagged with the `d_type` readdir reports for it.  Non-directory
entries still carry an `FsTree` (the tree they would denote if followed, e.g.
for a symlink to a directory); the walker must never enter it. -/
inductive FsTree where
  | node : NodeInfo → List (DType × FsTree) → FsTree

def FsTree.info : FsTree → NodeInfo
  | .node i _ => i

def FsTree.entries : FsTree → List (DType × FsTree)
  | .node _ es => es

def FsTree.name (t : FsTree) : String := t.info.name

mutual

def FsTree.size : FsTree → Nat
  | .node _ es => 1 + entriesSize es

def entriesSize : List (DType × FsTree) → Nat
  | [] => 0
  | (_, t) :: es => FsTree.size t + entriesSize es

end

theorem FsTree.size_pos (t : FsTree) : 1 ≤ t.size := by
  cases t with
  | node i es => simp only [FsTree.size]; omega

/-- The subdirectories pushed onto the traversal stack while scanning the
`readdir` listing of directory `dirName`: entries whose `d_type` is `DT_DIR`
and whose name is neither `"."` nor `".."`, in listing order, each paired
with its full path `dirName ++ "/" ++ name`. -/
def pushList (dirName : String) : List (DType × FsTree) → List (String × FsTree)
  | [] => []
  | (dt, t) :: rest =>
    if dt = DType.dir then
      if t.name = "." ∨ t.name = ".." then pushList dirName rest
      else (dirName ++ "/" ++ t.name, t) :: pushList dirName rest
    else pushList dirName rest

/-- Total tree size held in a traversal stack (termination measure). -/
def stackSize : List (String × FsTree) → Nat
  | [] => 0
  | (_, t) :: rest => t.size + stackSize rest

theorem stackSize_append (a b : List (String × FsTree)) :
    stackSize (a ++ b) = stackSize a + stackSize b := by
  induction a with
  | nil => simp [stackSize]
  | cons hd tl ih =>
    obtain ⟨d, t⟩ := hd
    simp [stackSize, ih]; omega

theorem stackSize_reverse (a : List (String × FsTree)) :
    stackSize a.reverse = stackSize a := by
  induction a with
  | nil => rfl
  | cons hd tl ih =>
    obtain ⟨d, t⟩ := hd
    simp [stackSize, List.reverse_cons, stackSize_append, ih]
    omega

theorem pushList_stackSize_le (dirName : String) (es : List (DType × FsTree)) :
    stackSize (pushList dirName es) ≤ entriesSize es := by
  induction es with
  | nil => simp [pushList, stackSize, entriesSize]
  | cons hd tl ih =>
    obtain ⟨dt, t⟩ := hd
    have h1 := FsTree.size_pos t
    by_cases hdt : dt = DType.dir
    · by_cases hname : t.name = "." ∨ t.name = ".."
      · simp [pushList, hdt, hname, entriesSize]; omega
      · simp [pushList, hdt, hname, entriesSize, stackSize]; omega
    · simp [pushList, hdt, entriesSize]; omega

/-- The observable state accumulated by one `CgroupProber` object across runs
of `trigger_existing_cgroup_probe`:
* `visited`: paths popped off the stack and passed to `opendir`, in order;
* `markerAttempts`: marker-file paths handed to `std::ifstream`, in order;
* `pushedNames`: `d_name`s of entries pushed onto the stack, in order;
* `closeEvents`: the success flag of each `closedir` call, in order (ghost
  log used to state counter properties);
* `close_dir_error_count`: the member `close_dir_error_count_`. -/
structure WalkState where
  visited : List String
  markerAttempts : List String
  pushedNames : List String
  closeEvents : List Bool
  close_dir_error_count : Nat
deriving DecidableEq, Repr

def initState : WalkState := ⟨[], [], [], [], 0⟩

/-- Pointwise concatenation of observation states. -/
def WalkState.app (s r : WalkState) : WalkState :=
  ⟨s.visited ++ r.visited,
   s.markerAttempts ++ r.markerAttempts,
   s.pushedNames ++ r.pushedNames,
   s.closeEvents ++ r.closeEvents,
   s.close_dir_error_count + r.close_dir_error_count⟩

theorem WalkState.app_init (s : WalkState) : s.app initState = s := by
  simp [WalkState.app, initState]

theorem WalkState.init_app (s : WalkState) : initState.app s = s := by
  simp [WalkState.app, initState]

theorem WalkState.app_assoc (s r q : WalkState) :
    (s.app r).app q = s.app (r.app q) := by
  simp [WalkState.app]; omega

/-- The body of `CgroupProber::trigger_existing_cgroup_probe`'s `while` loop:
pop the top directory; attempt `opendir` (on failure, `continue`); attempt to
open `dir_name + "/" + file_name` (on failure, `closedir` — counting an error
if it fails — and `continue`); otherwise scan the listing, pushing
subdirectories other than `"."`/`".."`, then `closedir`, counting an error on
failure. -/
def walkLoop (fileName : String) : List (String × FsTree) → WalkState → WalkState
  | [], s => s
  | (dirName, FsTree.node info entries) :: rest, s =>
    let s1 : WalkState := { s with visited := s.visited ++ [dirName] }
    if info.openOk then
      let s2 : WalkState :=
        { s1 with markerAttempts := s1.markerAttempts ++ [dirName ++ "/" ++ fileName] }
      if info.markerOk then
        let pushes := pushList dirName entries
        let s3 : WalkState :=
          { s2 with pushedNames := s2.pushedNames ++ pushes.map (fun p => p.2.name) }
        let s4 : WalkState :=
          { s3 with closeEvents := s3.closeEvents ++ [info.closeOk],
                    close_dir_error_count :=
                      s3.close_dir_error_count + (if info.closeOk then 0 else 1) }
        walkLoop fileName (pushes.reverse ++ rest) s4
      else
        let s3 : WalkState :=
          { s2 with closeEvents := s2.closeEvents ++ [info.closeOk],
                    close_dir_error_count :=
                      s2.close_dir_error_count + (if info.closeOk then 0 else 1) }
        walkLoop fileName rest s3
    else
      walkLoop fileName rest s1
termination_by st _ => stackSize st
decreasing_by
  all_goals
    (have h := pushList_stackSize_le dirName entries
     simp only [stackSize, stackSize_append, stackSize_reverse, FsTree.size]
     omega)

/-- `CgroupProber::trigger_existing_cgroup_probe(cgroup_dir_name, file_name, cb)`:
seed the stack with the hierarchy root and run the loop, starting from the
object state `s`. -/
def trigger_existing_cgroup_probe
    (cgroup_dir_name file_name : String) (t : FsTree) (s : WalkState) : WalkState :=
  walkLoop file_name [(cgroup_dir_name, t)] s

theorem walkLoop_nil (f : String) (s : WalkState) : walkLoop f [] s = s := by
  rw [walkLoop]

theorem walkLoop_cons_openFail (f d : String) (info : NodeInfo)
    (es : List (DType × FsTree)) (rest : List (String × FsTree)) (s : WalkState)
    (h : info.openOk = false) :
    walkLoop f ((d, FsTree.node info es) :: rest) s =
      walkLoop f rest { s with visited := s.visited ++ [d] } := by
  rw [walkLoop]
  simp [h]

theorem walkLoop_cons_markerFail (f d : String) (info : NodeInfo)
    (es : List (DType × FsTree)) (rest : List (String × FsTree)) (s : WalkState)
    (h1 : info.openOk = true) (h2 : info.markerOk = false) :
    walkLoop f ((d, FsTree.node info es) :: rest) s =
      walkLoop f rest
        { s with visited := s.visited ++ [d],
                 markerAttempts := s.markerAttempts ++ [d ++ "/" ++ f],
                 closeEvents := s.closeEvents ++ [info.closeOk],
                 close_dir_error_count :=
                   s.close_dir_error_count + (if info.closeOk then 0 else 1) } := by
  rw [walkLoop]
  simp [h1, h2]

theorem walkLoop_cons_success (f d : String) (info : NodeInfo)
    (es : List (DType × FsTree)) (rest : List (String × FsTree)) (s : WalkState)
    (h1 : info.openOk = true) (h2 : info.markerOk = true) :
    walkLoop f ((d, FsTree.node info es) :: rest) s =
      walkLoop f ((pushList d es).reverse ++ rest)
        { s with visited := s.visited ++ [d],
                 markerAttempts := s.markerAttempts ++ [d ++ "/" ++ f],
                 pushedNames := s.pushedNames ++ (pushList d es).map (fun p => p.2.name),
                 closeEvents := s.closeEvents ++ [info.closeOk],
                 close_dir_error_count :=
                   s.close_dir_error_count + (if info.closeOk then 0 else 1) } := by
  rw [walkLoop]
  simp [h1, h2]

/-- Strong induction on the total tree size of a traversal stack. -/
theorem stack_strong_induction (P : List (String × FsTree) → Prop)
    (h : ∀ st, (∀ st2, stackSize st2 < stackSize st → P st2) → P st) :
    ∀ st, P st := by
  have key : ∀ n st, stackSize st ≤ n → P st := by
    intro n
    induction n with
    | zero =>
      intro st hle
      exact h st (fun st2 hlt => absurd (Nat.lt_of_lt_of_le hlt hle) (Nat.not_lt_zero _))
    | succ n ih =>
      intro st hle
      exact h st (fun st2 hlt => ih st2 (by omega))
  exact fun st => key (stackSize st) st (le_refl _)

theorem stackSize_lt_pushes (d : String) (info : NodeInfo) (es : List (DType × FsTree))
    (rest : List (String × FsTree)) :
    stackSize ((pushList d es).reverse ++ rest) <
      stackSize ((d, FsTree.node info es) :: rest) := by
  have h := pushList_stackSize_le d es
  simp only [stackSize, stackSize_append, stackSize_reverse, FsTree.size]
  omega

theorem stackSize_lt_rest (d : String) (t : FsTree) (rest : List (String × FsTree)) :
    stackSize rest < stackSize ((d, t) :: rest) := by
  have h := FsTree.size_pos t
  simp only [stackSize]
  omega

/-- Running the loop from state `s.app x` yields `s.app` of running it from `x`:
the walker only appends to the observation lists and adds to the counter, and
its control flow never reads the state. -/
theorem walkLoop_app (f : String) :
    ∀ (st : List (String × FsTree)) (s x : WalkState),
      walkLoop f st (WalkState.app s x) = WalkState.app s (walkLoop f st x) := by
  refine stack_strong_induction
    (fun st => ∀ s x, walkLoop f st (WalkState.app s x) = WalkState.app s (walkLoop f st x))
    (fun st ih => ?_)
  intro s x
  match st with
  | [] => simp [walkLoop_nil]
  | (d, FsTree.node info es) :: rest =>
    by_cases h1 : info.openOk
    · by_cases h2 : info.markerOk
      · rw [walkLoop_cons_success f d info es rest _ h1 h2,
            walkLoop_cons_success f d info es rest x h1 h2,
            ← ih _ (stackSize_lt_pushes d info es rest)]
        congr 1
        simp [WalkState.app, List.append_assoc, Nat.add_assoc]
      · rw [walkLoop_cons_markerFail f d info es rest _ h1 (by simpa using h2),
            walkLoop_cons_markerFail f d info es rest x h1 (by simpa using h2),
            ← ih _ (stackSize_lt_rest _ _ rest)]
        congr 1
        simp [WalkState.app, List.append_assoc, Nat.add_assoc]
    · rw [walkLoop_cons_openFail f d info es rest _ (by simpa using h1),
          walkLoop_cons_openFail f d info es rest x (by simpa using h1),
          ← ih _ (stackSize_lt_rest _ _ rest)]
      congr 1
      simp [WalkState.app, List.append_assoc, Nat.add_assoc]

/-- The run of the loop from the empty observation state. -/
def walkRun (f : String) (st : List (String × FsTree)) : WalkState :=
  walkLoop f st initState

theorem walkLoop_eq_app_run (f : String) (st : List (String × FsTree)) (s : WalkState) :
    walkLoop f st s = WalkState.app s (walkRun f st) := by
  have h := walkLoop_app f st s initState
  rw [WalkState.app_init] at h
  exact h

/-- Processing a concatenated stack processes the first part, then the second. -/
theorem walkLoop_append (f : String) :
    ∀ (st1 st2 : List (String × FsTree)) (s : WalkState),
      walkLoop f (st1 ++ st2) s = walkLoop f st2 (walkLoop f st1 s) := by
  refine stack_strong_induction
    (fun st1 => ∀ st2 s, walkLoop f (st1 ++ st2) s = walkLoop f st2 (walkLoop f st1 s))
    (fun st1 ih => ?_)
  intro st2 s
  match st1 with
  | [] => simp [walkLoop_nil]
  | (d, FsTree.node info es) :: rest =>
    by_cases h1 : info.openOk
    · by_cases h2 : info.markerOk
      · rw [List.cons_append,
            walkLoop_cons_success f d info es (rest ++ st2) _ h1 h2,
            walkLoop_cons_success f d info es rest _ h1 h2,
            ← List.append_assoc,
            ih _ (stackSize_lt_pushes d info es rest)]
      · rw [List.cons_append,
            walkLoop_cons_markerFail f d info es (rest ++ st2) _ h1 (by simpa using h2),
            walkLoop_cons_markerFail f d info es rest _ h1 (by simpa using h2),
            ih _ (stackSize_lt_rest _ _ rest)]
    · rw [List.cons_append,
          walkLoop_cons_openFail f d info es (rest ++ st2) _ (by simpa using h1),
          walkLoop_cons_openFail f d info es rest _ (by simpa using h1),
          ih _ (stackSize_lt_rest _ _ rest)]

theorem walkRun_nil (f : String) : walkRun f [] = initState := by
  simp [walkRun, walkLoop_nil]

theorem walkRun_cons_openFail (f d : String) (i : NodeInfo)
    (es : List (DType × FsTree)) (rest : List (String × FsTree))
    (h : i.openOk = false) :
    walkRun f ((d, FsTree.node i es) :: rest) =
      WalkState.app ⟨[d], [], [], [], 0⟩ (walkRun f rest) := by
  rw [walkRun, walkLoop_cons_openFail f d i es rest _ h, walkLoop_eq_app_run]
  congr 1 <;> simp [initState]

theorem walkRun_cons_markerFail (f d : String) (i : NodeInfo)
    (es : List (DType × FsTree)) (rest : List (String × FsTree))
    (h1 : i.openOk = true) (h2 : i.markerOk = false) :
    walkRun f ((d, FsTree.node i es) :: rest) =
      WalkState.app ⟨[d], [d ++ "/" ++ f], [], [i.closeOk], if i.closeOk then 0 else 1⟩
        (walkRun f rest) := by
  rw [walkRun, walkLoop_cons_markerFail f d i es rest _ h1 h2, walkLoop_eq_app_run]
  congr 1 <;> simp [initState]

theorem walkRun_cons_success (f d : String) (i : NodeInfo)
    (es : List (DType × FsTree)) (rest : List (String × FsTree))
    (h1 : i.openOk = true) (h2 : i.markerOk = true) :
    walkRun f ((d, FsTree.node i es) :: rest) =
      WalkState.app
        ⟨[d], [d ++ "/" ++ f], (pushList d es).map (fun p => p.2.name),
         [i.closeOk], if i.closeOk then 0 else 1⟩
        (walkRun f ((pushList d es).reverse ++ rest)) := by
  rw [walkRun, walkLoop_cons_success f d i es rest _ h1 h2, walkLoop_eq_app_run]
  congr 1 <;> simp [initState]

mutual

/-- The paths of all directory nodes reachable from a root at path `p`:
the root itself, plus, recursively, every entry whose `d_type` is `DT_DIR`
and whose name is not `"."`/`".."`. -/
def dirPaths : String → FsTree → List String
  | p, .node _ es => p :: dirPathsEntries p es

def dirPathsEntries : String → List (DType × FsTree) → List String
  | _, [] => []
  | p, (dt, t) :: rest =>
    (if dt = DType.dir ∧ ¬(t.name = "." ∨ t.name = "..") then
      dirPaths (p ++ "/" ++ t.name) t
    else []) ++ dirPathsEntries p rest

end

def stackPaths : List (String × FsTree) → List String
  | [] => []
  | (d, t) :: rest => dirPaths d t ++ stackPaths rest

theorem stackPaths_append (a b : List (String × FsTree)) :
    stackPaths (a ++ b) = stackPaths a ++ stackPaths b := by
  induction a with
  | nil => simp [stackPaths]
  | cons hd tl ih =>
    obtain ⟨d, t⟩ := hd
    simp [stackPaths, ih]

theorem stackPaths_reverse_perm (a : List (String × FsTree)) :
    (stackPaths a.reverse).Perm (stackPaths a) := by
  induction a with
  | nil => exact List.Perm.refl _
  | cons hd tl ih =>
    obtain ⟨d, t⟩ := hd
    rw [List.reverse_cons, stackPaths_append]
    have h1 : (stackPaths tl.reverse ++ stackPaths [(d, t)]).Perm
        (stackPaths [(d, t)] ++ stackPaths tl.reverse) := List.perm_append_comm
    refine h1.trans ?_
    simp only [stackPaths, List.append_nil]
    exact List.Perm.append_left _ ih

theorem stackPaths_pushList (d : String) (es : List (DType × FsTree)) :
    stackPaths (pushList d es) = dirPathsEntries d es := by
  induction es with
  | nil => simp [pushList, stackPaths, dirPathsEntries]
  | cons hd tl ih =>
    obtain ⟨dt, t⟩ := hd
    by_cases hdt : dt = DType.dir
    · by_cases hname : t.name = "." ∨ t.name = ".."
      · simp [pushList, hdt, hname, dirPathsEntries, ih]
      · simp [pushList, hdt, hname, dirPathsEntries, stackPaths, ih]
    · simp [pushList, hdt, dirPathsEntries, ih]

mutual

/-- All `opendir`s and marker-file opens in the tree succeed. -/
def FsTree.allOpensOk : FsTree → Bool
  | .node i es => i.openOk && i.markerOk && entriesAllOpensOk es

def entriesAllOpensOk : List (DType × FsTree) → Bool
  | [] => true
  | (_, t) :: es => t.allOpensOk && entriesAllOpensOk es

end

def stackAllOk : List (String × FsTree) → Bool
  | [] => true
  | (_, t) :: rest => t.allOpensOk && stackAllOk rest

theorem stackAllOk_append (a b : List (String × FsTree)) :
    stackAllOk (a ++ b) = (stackAllOk a && stackAllOk b) := by
  induction a with
  | nil => simp [stackAllOk]
  | cons hd tl ih =>
    obtain ⟨d, t⟩ := hd
    simp [stackAllOk, ih, Bool.and_assoc]

theorem stackAllOk_reverse (a : List (String × FsTree)) :
    stackAllOk a.reverse = stackAllOk a := by
  induction a with
  | nil => rfl
  | cons hd tl ih =>
    obtain ⟨d, t⟩ := hd
    simp [stackAllOk, List.reverse_cons, stackAllOk_append, ih, Bool.and_comm]

theorem stackAllOk_pushList (d : String) (es : List (DType × FsTree))
    (h : entriesAllOpensOk es = true) :
    stackAllOk (pushList d es) = true := by
  induction es with
  | nil => simp [pushList, stackAllOk]
  | cons hd tl ih =>
    obtain ⟨dt, t⟩ := hd
    simp only [entriesAllOpensOk, Bool.and_eq_true] at h
    by_cases hdt : dt = DType.dir
    · by_cases hname : t.name = "." ∨ t.name = ".."
      · simp [pushList, hdt, hname, ih h.2]
      · simp [pushList, hdt, hname, stackAllOk, h.1, ih h.2]
    · simp [pushList, hdt, ih h.2]

/-- When every `opendir` and marker-file open succeeds, the walker's visit
list is a permutation of the paths of all reachable directory nodes: every
node is popped and opened exactly once. -/
theorem walkRun_visited_perm (f : String) :
    ∀ st, stackAllOk st = true → ((walkRun f st).visited).Perm (stackPaths st) := by
  refine stack_strong_induction
    (fun st => stackAllOk st = true → ((walkRun f st).visited).Perm (stackPaths st))
    (fun st ih => ?_)
  intro hok
  match st with
  | [] => simp [walkRun_nil, initState, stackPaths]
  | (d, FsTree.node i es) :: rest =>
    simp only [stackAllOk, FsTree.allOpensOk, Bool.and_eq_true] at hok
    obtain ⟨⟨⟨h1, h2⟩, hes⟩, hrest⟩ := hok
    rw [walkRun_cons_success f d i es rest h1 h2]
    have hok2 : stackAllOk ((pushList d es).reverse ++ rest) = true := by
      rw [stackAllOk_append, stackAllOk_reverse, stackAllOk_pushList d es hes, hrest]
      rfl
    have ihp := ih _ (stackSize_lt_pushes d i es rest) hok2
    simp only [WalkState.app, List.singleton_append, stackPaths, dirPaths,
      List.cons_append]
    refine List.Perm.cons d ?_
    refine ihp.trans ?_
    rw [stackPaths_append]
    have hrev := List.Perm.append_right (stackPaths rest)
      (stackPaths_reverse_perm (pushList d es))
    rw [stackPaths_pushList] at hrev
    exact hrev

/-- Whatever the outcomes of the individual opens, every path the walker
visits is the path of a reachable directory node: the walker never descends
through an entry whose `d_type` is not `DT_DIR`, nor through `"."`/`".."`. -/
theorem walkRun_visited_subset (f : String) :
    ∀ st, (walkRun f st).visited ⊆ stackPaths st := by
  refine stack_strong_induction (fun st => (walkRun f st).visited ⊆ stackPaths st)
    (fun st ih => ?_)
  match st with
  | [] => simp [walkRun_nil, initState, stackPaths]
  | (d, FsTree.node i es) :: rest =>
    intro a ha
    by_cases h1 : i.openOk
    · by_cases h2 : i.markerOk
      · rw [walkRun_cons_success f d i es rest h1 h2] at ha
        simp only [WalkState.app, List.singleton_append, List.mem_cons] at ha
        simp only [stackPaths, dirPaths, List.cons_append, List.mem_cons,
          List.mem_append]
        rcases ha with rfl | ha
        · exact Or.inl rfl
        · have hmem := ih _ (stackSize_lt_pushes d i es rest) ha
          rw [stackPaths_append] at hmem
          rcases List.mem_append.mp hmem with hmem | hmem
          · have := (stackPaths_reverse_perm (pushList d es)).mem_iff.mp hmem
            rw [stackPaths_pushList] at this
            exact Or.inr (Or.inl this)
          · exact Or.inr (Or.inr hmem)
      · rw [walkRun_cons_markerFail f d i es rest h1 (by simpa using h2)] at ha
        simp only [WalkState.app, List.singleton_append, List.mem_cons] at ha
        simp only [stackPaths, dirPaths, List.cons_append, List.mem_cons,
          List.mem_append]
        rcases ha with rfl | ha
        · exact Or.inl rfl
        · exact Or.inr (Or.inr (ih _ (stackSize_lt_rest _ _ rest) ha))
    · rw [walkRun_cons_openFail f d i es rest (by simpa using h1)] at ha
      simp only [WalkState.app, List.singleton_append, List.mem_cons] at ha
      simp only [stackPaths, dirPaths, List.cons_append, List.mem_cons,
        List.mem_append]
      rcases ha with rfl | ha
      · exact Or.inl rfl
      · exact Or.inr (Or.inr (ih _ (stackSize_lt_rest _ _ rest) ha))

/-- Over any run from the empty state, the close-error counter equals the
number of failed `closedir` calls. -/
theorem walkRun_closeErr (f : String) :
    ∀ st, (walkRun f st).close_dir_error_count = (walkRun f st).closeEvents.count false := by
  refine stack_strong_induction
    (fun st =>
      (walkRun f st).close_dir_error_count = (walkRun f st).closeEvents.count false)
    (fun st ih => ?_)
  match st with
  | [] => simp [walkRun_nil, initState]
  | (d, FsTree.node i es) :: rest =>
    show (walkRun f ((d, FsTree.node i es) :: rest)).close_dir_error_count =
      (walkRun f ((d, FsTree.node i es) :: rest)).closeEvents.count false
    by_cases h1 : i.openOk
    · by_cases h2 : i.markerOk
      · rw [walkRun_cons_success f d i es rest h1 h2]
        have ihp := ih _ (stackSize_lt_pushes d i es rest)
        cases hc : i.closeOk <;>
          simp [WalkState.app, List.count_append, ihp, List.count_cons] <;> omega
      · rw [walkRun_cons_markerFail f d i es rest h1 (by simpa using h2)]
        have ihp := ih _ (stackSize_lt_rest _ _ rest)
        cases hc : i.closeOk <;>
          simp [WalkState.app, List.count_append, ihp, List.count_cons] <;> omega
    · rw [walkRun_cons_openFail f d i es rest (by simpa using h1)]
      have ihp := ih _ (stackSize_lt_rest _ _ rest)
      simp [WalkState.app, List.count_append, ihp]

/-- Starting from any object state, a run adds to `close_dir_error_count_`
exactly the number of failed `closedir` calls of that run. -/
theorem walkLoop_closeErr_delta (f : String) (st : List (String × FsTree))
    (s : WalkState) :
    (walkLoop f st s).close_dir_error_count =
      s.close_dir_error_count + ((walkRun f st).closeEvents.count false) := by
  rw [walkLoop_eq_app_run]
  simp [WalkState.app, walkRun_closeErr]

mutual

/-- The same tree with every `closedir` outcome forced to success. -/
def FsTree.scrubClose : FsTree → FsTree
  | .node i es => .node ⟨i.name, i.openOk, i.markerOk, true⟩ (scrubCloseEntries es)

def scrubCloseEntries : List (DType × FsTree) → List (DType × FsTree)
  | [] => []
  | (dt, t) :: es => (dt, t.scrubClose) :: scrubCloseEntries es

end

def scrubCloseStack : List (String × FsTree) → List (String × FsTree)
  | [] => []
  | (d, t) :: rest => (d, t.scrubClose) :: scrubCloseStack rest

theorem FsTree.scrubClose_name (t : FsTree) : t.scrubClose.name = t.name := by
  cases t with
  | node i es => simp [FsTree.scrubClose, FsTree.name, FsTree.info]

theorem scrubCloseStack_append (a b : List (String × FsTree)) :
    scrubCloseStack (a ++ b) = scrubCloseStack a ++ scrubCloseStack b := by
  induction a with
  | nil => simp [scrubCloseStack]
  | cons hd tl ih =>
    obtain ⟨d, t⟩ := hd
    simp [scrubCloseStack, ih]

theorem scrubCloseStack_reverse (a : List (String × FsTree)) :
    scrubCloseStack a.reverse = (scrubCloseStack a).reverse := by
  induction a with
  | nil => rfl
  | cons hd tl ih =>
    obtain ⟨d, t⟩ := hd
    simp [scrubCloseStack, List.reverse_cons, scrubCloseStack_append, ih]

theorem scrubCloseStack_map_name (l : List (String × FsTree)) :
    (scrubCloseStack l).map (fun p => p.2.name) = l.map (fun p => p.2.name) := by
  induction l with
  | nil => rfl
  | cons hd tl ih =>
    obtain ⟨d, t⟩ := hd
    simp [scrubCloseStack, FsTree.scrubClose_name, ih]

theorem pushList_scrub (d : String) (es : List (DType × FsTree)) :
    pushList d (scrubCloseEntries es) = scrubCloseStack (pushList d es) := by
  induction es with
  | nil => simp [pushList, scrubCloseEntries, scrubCloseStack]
  | cons hd tl ih =>
    obtain ⟨dt, t⟩ := hd
    by_cases hdt : dt = DType.dir
    · by_cases hname : t.name = "." ∨ t.name = ".."
      · simp [pushList, scrubCloseEntries, hdt, FsTree.scrubClose_name, hname, ih]
      · simp [pushList, scrubCloseEntries, hdt, FsTree.scrubClose_name, hname,
          scrubCloseStack, ih]
    · simp [pushList, scrubCloseEntries, hdt, ih]

/-- The outcome of `closedir` never influences the traversal: the visit,
marker-open and push sequences are unchanged when every `closedir` is made
to succeed. -/
theorem walkRun_scrub_obs (f : String) :
    ∀ st, (walkRun f (scrubCloseStack st)).visited = (walkRun f st).visited ∧
      (walkRun f (scrubCloseStack st)).markerAttempts = (walkRun f st).markerAttempts ∧
      (walkRun f (scrubCloseStack st)).pushedNames = (walkRun f st).pushedNames := by
  refine stack_strong_induction
    (fun st => (walkRun f (scrubCloseStack st)).visited = (walkRun f st).visited ∧
      (walkRun f (scrubCloseStack st)).markerAttempts = (walkRun f st).markerAttempts ∧
      (walkRun f (scrubCloseStack st)).pushedNames = (walkRun f st).pushedNames)
    (fun st ih => ?_)
  match st with
  | [] => simp [scrubCloseStack]
  | (d, FsTree.node i es) :: rest =>
    show (walkRun f (scrubCloseStack ((d, FsTree.node i es) :: rest))).visited =
        (walkRun f ((d, FsTree.node i es) :: rest)).visited ∧ _ ∧ _
    rw [show scrubCloseStack ((d, FsTree.node i es) :: rest) =
        (d, FsTree.node ⟨i.name, i.openOk, i.markerOk, true⟩ (scrubCloseEntries es)) ::
          scrubCloseStack rest
      from by simp [scrubCloseStack, FsTree.scrubClose]]
    by_cases h1 : i.openOk
    · by_cases h2 : i.markerOk
      · rw [walkRun_cons_success f d ⟨i.name, i.openOk, i.markerOk, true⟩
              (scrubCloseEntries es) (scrubCloseStack rest) h1 h2,
            walkRun_cons_success f d i es rest h1 h2,
            pushList_scrub, ← scrubCloseStack_reverse, ← scrubCloseStack_append]
        obtain ⟨hv, hm, hp⟩ := ih _ (stackSize_lt_pushes d i es rest)
        refine ⟨?_, ?_, ?_⟩ <;>
          simp [WalkState.app, hv, hm, hp, scrubCloseStack_map_name]
      · rw [walkRun_cons_markerFail f d ⟨i.name, i.openOk, i.markerOk, true⟩
              (scrubCloseEntries es) (scrubCloseStack rest) h1 (by simpa using h2),
            walkRun_cons_markerFail f d i es rest h1 (by simpa using h2)]
        obtain ⟨hv, hm, hp⟩ := ih _ (stackSize_lt_rest _ _ rest)
        refine ⟨?_, ?_, ?_⟩ <;> simp [WalkState.app, hv, hm, hp]
    · rw [walkRun_cons_openFail f d ⟨i.name, i.openOk, i.markerOk, true⟩
            (scrubCloseEntries es) (scrubCloseStack rest) (by simpa using h1),
          walkRun_cons_openFail f d i es rest (by simpa using h1)]
      obtain ⟨hv, hm, hp⟩ := ih _ (stackSize_lt_rest _ _ rest)
      refine ⟨?_, ?_, ?_⟩ <;> simp [WalkState.app, hv, hm, hp]

/-- Classification of `struct stat`'s `st_mode`. -/
inductive FileKind where
  | regular    -- S_ISREG
  | directory
  | symlink
  | device
  | other
deriving DecidableEq, Repr

/-- `file_exists` from `cgroup_prober.cc`: `stat` the path (`none` models
`stat(...) == -1`) and require `S_ISREG(sb.st_mode)`. -/
def file_exists (stat : String → Option FileKind) (file_path : String) : Bool :=
  match stat file_path with
  | none => false
  | some k => k = FileKind.regular

def is_cgroup_v1_mountpoint (stat : String → Option FileKind) (dir_path : String) : Bool :=
  file_exists stat (dir_path ++ "/cgroup.clone_children")

def is_cgroup_v2_mountpoint (stat : String → Option FileKind) (dir_path : String) : Bool :=
  file_exists stat (dir_path ++ "/cgroup.controllers")

def cgroup_v1_mountpoints : List String :=
  ["/hostfs/sys/fs/cgroup/memory", "/hostfs/cgroup/memory", "/sys/fs/cgroup/memory",
   "/cgroup/memory"]

def cgroup_v2_mountpoints : List String :=
  ["/hostfs/sys/fs/cgroup", "/sys/fs/cgroup"]

/-- The shared candidate loop of the two finders: return the first candidate
satisfying the predicate, or the empty string (`std::string()`). -/
def findMountpoint (p : String → Bool) : List String → String
  | [] => ""
  | m :: ms => if p m then m else findMountpoint p ms

def find_cgroup_v1_mountpoint (stat : String → Option FileKind) : String :=
  findMountpoint (is_cgroup_v1_mountpoint stat) cgroup_v1_mountpoints

def find_cgroup_v2_mountpoint (stat : String → Option FileKind) : String :=
  findMountpoint (is_cgroup_v2_mountpoint stat) cgroup_v2_mountpoints

theorem findMountpoint_eq_find (p : String → Bool) (l : List String) :
    findMountpoint p l = ((l.find? p).getD "") := by
  induction l with
  | nil => rfl
  | cons m ms ih =>
    by_cases h : p m <;> simp [findMountpoint, h, ih]

/-- C++ `std::string` `operator<`: byte-wise lexicographic comparison of the
character sequences. -/
def cppStrLtChars : List Char → List Char → Bool
  | [], [] => false
  | [], _ :: _ => true
  | _ :: _, [] => false
  | a :: as, b :: bs =>
    if a.val < b.val then true
    else if b.val < a.val then false
    else cppStrLtChars as bs

/-- C++ `std::string` `operator>=`, as used in
`host_info_.kernel_version >= cgroup_v2_first_kernel_version`. -/
def cppStrGe (s t : String) : Bool := !(cppStrLtChars s.data t.data)

def cgroup_v2_first_kernel_version : String := "4.6"

/-- One observable step of `CgroupProber::CgroupProber`. -/
inductive SeqAction where
  | startProbeAlts (desc : String)
  | startProbe (handler symbol : String)
  | startKretprobe (handler symbol : String)
  | cleanupProbe (symbol : String)
  | cleanupKretprobe (symbol : String)
  | periodicCb
  | checkCb (msg : String)
  | backfill (root marker : String)
deriving DecidableEq, Repr

/-- The sequence of externally visible actions performed by the constructor
`CgroupProber::CgroupProber`, parameterized by the `stat` oracle (which
determines the mountpoints found) and by `host_info_.kernel_version`. -/
def CgroupProber_constructor (stat : String → Option FileKind)
    (kernel_version : String) : List SeqAction :=
  [SeqAction.startProbeAlts "kill css", SeqAction.periodicCb,
   SeqAction.startProbeAlts "css populate dir", SeqAction.periodicCb,
   SeqAction.startProbe "on_cgroup_clone_children_read" "cgroup_clone_children_read",
   SeqAction.startProbe "on_cgroup_attach_task" "cgroup_attach_task",
   SeqAction.periodicCb, SeqAction.checkCb "cgroup prober startup"]
  ++ (let cgroup_v1_mountpoint := find_cgroup_v1_mountpoint stat
      if cgroup_v1_mountpoint = "" then []
      else [SeqAction.backfill cgroup_v1_mountpoint "cgroup.clone_children",
            SeqAction.checkCb "trigger_cgroup_clone_children_read()"])
  ++ [SeqAction.cleanupProbe "cgroup_clone_children_read"]
  ++ (if cppStrGe kernel_version cgroup_v2_first_kernel_version then
        [SeqAction.startProbe "on_cgroup_control" "cgroup_control",
         SeqAction.startKretprobe "onret_cgroup_control" "cgroup_control"]
        ++ (let cgroup_v2_mountpoint := find_cgroup_v2_mountpoint stat
            if cgroup_v2_mountpoint = "" then []
            else [SeqAction.backfill cgroup_v2_mountpoint "cgroup.controllers",
                  SeqAction.checkCb "trigger_cgroup_control()"])
        ++ [SeqAction.cleanupKretprobe "cgroup_control",
            SeqAction.cleanupProbe "cgroup_control"]
      else [])
  ++ [SeqAction.periodicCb, SeqAction.checkCb "cgroup prober cleanup()"]

def isCleanupCloneChildrenRead : SeqAction → Bool
  | .cleanupProbe s => s == "cgroup_clone_children_read"
  | _ => false

def isV1Backfill : SeqAction → Bool
  | .backfill _ m => m == "cgroup.clone_children"
  | _ => false

def isV2PhaseAction : SeqAction → Bool
  | .startProbe _ s => s == "cgroup_control"
  | .startKretprobe _ s => s == "cgroup_control"
  | .cleanupProbe s => s == "cgroup_control"
  | .cleanupKretprobe s => s == "cgroup_control"
  | .backfill _ m => m == "cgroup.controllers"
  | _ => false

/-- The "kill css" `ProbeAlternatives` constructed in the constructor. -/
structure ProbeAlternatives where
  desc : String
  alternatives : List (String × String)

def kill_kss_probe_alternatives : ProbeAlternatives :=
  ⟨"kill css",
   [("on_kill_css", "kill_css"),
    ("on_kill_css", "css_clear_dir"),
    ("on_cgroup_destroy_locked", "cgroup_destroy_locked")]⟩

def css_populate_dir_probe_alternatives : ProbeAlternatives :=
  ⟨"css populate dir",
   [("on_css_populate_dir", "css_populate_dir"),
    ("on_cgroup_populate_dir", "cgroup_populate_dir")]⟩

/-- Modelled from the spec: `ProbeHandler::start_probe` applied to a
`ProbeAlternatives` set — its implementation lives in `probe_handler.cc`,
which is not among the provided sources.  Per the spec's ordering rule, it
tries the `(handler, symbol)` alternatives in the exact declared order and
stops at the first that attaches without error; `attachOk` tells whether a
given alternative attaches successfully.  It returns the list of
alternatives actually attempted, in order. -/
def start_probe_attempts (attachOk : String × String → Bool) :
    List (String × String) → List (String × String)
  | [] => []
  | a :: rest => if attachOk a then [a] else a :: start_probe_attempts attachOk rest

theorem start_probe_attempts_eq (attachOk : String × String → Bool)
    (l : List (String × String)) :
    start_probe_attempts attachOk l =
      l.takeWhile (fun a => !(attachOk a)) ++
        (l.dropWhile (fun a => !(attachOk a))).take 1 := by
  induction l with
  | nil => rfl
  | cons a rest ih =>
    by_cases h : attachOk a <;>
      simp [start_probe_attempts, List.takeWhile_cons, List.dropWhile_cons, h, ih]

/-- The `/t/cgA` hierarchy of the end-to-end scenario: root with one child
`cgA1`, both containing a regular `cgroup.clone_children` marker file and
the `.`/`..` pseudo-entries readdir reports. -/
def cgA1_tree : FsTree :=
  .node ⟨"cgA1", true, true, true⟩
    [(DType.dir, .node ⟨".", true, true, true⟩ []),
     (DType.dir, .node ⟨"..", true, true, true⟩ []),
     (DType.reg, .node ⟨"cgroup.clone_children", true, true, true⟩ [])]

def cgA_tree : FsTree :=
  .node ⟨"cgA", true, true, true⟩
    [(DType.dir, .node ⟨".", true, true, true⟩ []),
     (DType.dir, .node ⟨"..", true, true, true⟩ []),
     (DType.reg, .node ⟨"cgroup.clone_children", true, true, true⟩ []),
     (DType.dir, cgA1_tree)]

/-- A root whose directory opens but whose marker file does not, with one
subdirectory `c`. -/
def c1_root_tree : FsTree :=
  .node ⟨"r", true, false, true⟩ [(DType.dir, .node ⟨"c", true, true, true⟩ [])]

/-- A root with a symlink entry and a `DT_UNKNOWN` entry, each denoting a
directory with a subdirectory, plus one genuine `DT_DIR` child. -/
def c10_tree : FsTree :=
  .node ⟨"root", true, true, true⟩
    [(DType.lnk, .node ⟨"slink", true, true, true⟩
        [(DType.dir, .node ⟨"ldir", true, true, true⟩ [])]),
     (DType.unknown, .node ⟨"uent", true, true, true⟩
        [(DType.dir, .node ⟨"udir", true, true, true⟩ [])]),
     (DType.dir, .node ⟨"child", true, true, true⟩ [])]


theorem pushList_names_count (d : String) (es : List (DType × FsTree)) :
    ((pushList d es).map (fun p => p.2.name)).count "." = 0 ∧
    ((pushList d es).map (fun p => p.2.name)).count ".." = 0 := by
  induction es with
  | nil => simp [pushList]
  | cons hd tl ih =>
    obtain ⟨dt, t⟩ := hd
    by_cases hdt : dt = DType.dir
    · by_cases hname : t.name = "." ∨ t.name = ".."
      · simp [pushList, hdt, hname, ih.1, ih.2]
      · obtain ⟨hn1, hn2⟩ := not_or.mp hname
        simp [pushList, hdt, hname, List.count_cons, hn1, hn2, ih.1, ih.2]
    · simp [pushList, hdt, ih.1, ih.2]

theorem walkRun_pushed_count_dot (f : String) :
    ∀ st, (walkRun f st).pushedNames.count "." = 0 ∧
      (walkRun f st).pushedNames.count ".." = 0 := by
  refine stack_strong_induction
    (fun st => (walkRun f st).pushedNames.count "." = 0 ∧
      (walkRun f st).pushedNames.count ".." = 0)
    (fun st ih => ?_)
  match st with
  | [] => simp [walkRun_nil, initState]
  | (d, FsTree.node i es) :: rest =>
    show (walkRun f ((d, FsTree.node i es) :: rest)).pushedNames.count "." = 0 ∧
      (walkRun f ((d, FsTree.node i es) :: rest)).pushedNames.count ".." = 0
    by_cases h1 : i.openOk
    · by_cases h2 : i.markerOk
      · rw [walkRun_cons_success f d i es rest h1 h2]
        have ihp := ih _ (stackSize_lt_pushes d i es rest)
        have hp := pushList_names_count d es
        simp [WalkState.app, List.count_append, ihp.1, ihp.2, hp.1, hp.2]
      · rw [walkRun_cons_markerFail f d i es rest h1 (by simpa using h2)]
        have ihp := ih _ (stackSize_lt_rest _ _ rest)
        simp [WalkState.app, ihp.1, ihp.2]
    · rw [walkRun_cons_openFail f d i es rest (by simpa using h1)]
      have ihp := ih _ (stackSize_lt_rest _ _ rest)
      simp [WalkState.app, ihp.1, ihp.2]

/-- **C1** (counterexample): for the concrete node `/r` whose directory opens
successfully but whose marker file `/r/m` fails to open, and which contains
the subdirectory entry `c` with `d_type = DT_DIR`, the walker pushes nothing
onto the stack and visits only `/r` — it does not enumerate the node's
entries, refuting the claim that the marker-open failure only skips the
trigger read and not the descent into children. -/
theorem C1_marker_fail_counterexample :
    c1_root_tree.info.openOk = true ∧
    c1_root_tree.info.markerOk = false ∧
    c1_root_tree.entries =
      [(DType.dir, FsTree.node ⟨"c", true, true, true⟩ [])] ∧
    (trigger_existing_cgroup_probe "/r" "m" c1_root_tree initState).pushedNames = [] ∧
    (trigger_existing_cgroup_probe "/r" "m" c1_root_tree initState).visited = ["/r"] := by
  refine ⟨rfl, rfl, rfl, ?_, ?_⟩ <;>
    simp [trigger_existing_cgroup_probe, c1_root_tree, initState,
      walkLoop_cons_markerFail, walkLoop_nil]

/-- **C1** (amended): in `trigger_existing_cgroup_probe`, when a node's
directory opens but its marker file fails to open, the walker records the
visit and the marker attempt, closes the directory (incrementing the
close-error counter exactly when the close fails), and then skips the node
entirely: none of its directory entries are enumerated or pushed, and the
traversal continues with the remaining stack unchanged. -/
theorem C1_marker_fail_skips_node (f d : String) (i : NodeInfo)
    (es : List (DType × FsTree)) (rest : List (String × FsTree)) (s : WalkState)
    (h1 : i.openOk = true) (h2 : i.markerOk = false) :
    walkLoop f ((d, FsTree.node i es) :: rest) s =
      walkLoop f rest
        { s with visited := s.visited ++ [d],
                 markerAttempts := s.markerAttempts ++ [d ++ "/" ++ f],
                 closeEvents := s.closeEvents ++ [i.closeOk],
                 close_dir_error_count :=
                   s.close_dir_error_count + (if i.closeOk then 0 else 1) } :=
  walkLoop_cons_markerFail f d i es rest s h1 h2

theorem C1_marker_fail_skips_node_witness :
    NodeInfo.openOk ⟨"r", true, false, true⟩ = true ∧
    NodeInfo.markerOk ⟨"r", true, false, true⟩ = false ∧
    walkLoop "m"
        [("/r", FsTree.node ⟨"r", true, false, true⟩
            [(DType.dir, FsTree.node ⟨"c", true, true, true⟩ [])])] initState =
      walkLoop "m" []
        { initState with
            visited := initState.visited ++ ["/r"],
            markerAttempts := initState.markerAttempts ++ ["/r" ++ "/" ++ "m"],
            closeEvents := initState.closeEvents ++ [true],
            close_dir_error_count :=
              initState.close_dir_error_count + (if true then 0 else 1) } :=
  ⟨rfl, rfl,
   C1_marker_fail_skips_node "m" "/r" ⟨"r", true, false, true⟩
     [(DType.dir, FsTree.node ⟨"c", true, true, true⟩ [])] [] initState rfl rfl⟩

/-- **C3**: for every finite directory tree in which all `opendir`s and all
marker-file opens succeed, the explicit-stack traversal (a total function of
the tree, hence terminating) pops and attempts to open every reachable
directory node exactly once: its visit list is a permutation of the list of
reachable directory-node paths, whatever the tree's shape. -/
theorem C3_every_node_visited_exactly_once (f p : String) (t : FsTree)
    (h : t.allOpensOk = true) :
    ((trigger_existing_cgroup_probe p f t initState).visited).Perm (dirPaths p t) ∧
    (trigger_existing_cgroup_probe p f t initState).visited.length =
      (dirPaths p t).length := by
  have hok : stackAllOk [(p, t)] = true := by simp [stackAllOk, h]
  have hperm : ((walkRun f [(p, t)]).visited).Perm (stackPaths [(p, t)]) :=
    walkRun_visited_perm f [(p, t)] hok
  have hsp : stackPaths [(p, t)] = dirPaths p t := by simp [stackPaths]
  rw [hsp] at hperm
  exact ⟨hperm, hperm.length_eq⟩

theorem C3_every_node_visited_exactly_once_witness :
    cgA_tree.allOpensOk = true ∧
    ((trigger_existing_cgroup_probe "/t/cgA" "cgroup.clone_children" cgA_tree
        initState).visited).Perm (dirPaths "/t/cgA" cgA_tree) :=
  ⟨by decide,
   (C3_every_node_visited_exactly_once "cgroup.clone_children" "/t/cgA" cgA_tree
     (by decide)).1⟩

/-- **C4**: `find_cgroup_v1_mountpoint` and `find_cgroup_v2_mountpoint`
return the first candidate, in the fixed declared order, whose
`candidate + "/" + marker` stats as a regular file, and the empty string
("not found") when no candidate qualifies; in the state where only the third
v1 candidate carries the marker, the third candidate is returned. -/
theorem C4_mountpoint_first_match :
    (∀ stat, find_cgroup_v1_mountpoint stat =
      ((cgroup_v1_mountpoints.find? (is_cgroup_v1_mountpoint stat)).getD "")) ∧
    (∀ stat, find_cgroup_v2_mountpoint stat =
      ((cgroup_v2_mountpoints.find? (is_cgroup_v2_mountpoint stat)).getD "")) ∧
    find_cgroup_v1_mountpoint
      (fun q => if q = "/sys/fs/cgroup/memory/cgroup.clone_children"
        then some FileKind.regular else none) = "/sys/fs/cgroup/memory" ∧
    find_cgroup_v1_mountpoint (fun _ => none) = "" ∧
    find_cgroup_v2_mountpoint (fun _ => none) = "" := by
  refine ⟨fun stat => findMountpoint_eq_find _ _,
    fun stat => findMountpoint_eq_find _ _, ?_, ?_, ?_⟩ <;> decide

/-- **C5**: a `ProbeAlternatives` set is attempted strictly in declared
order: the attempted alternatives are exactly the leading failing ones
followed by the first succeeding one (if any), and nothing after it; in
particular for the 3-alternative "kill css" set, whenever the second
alternative attaches successfully, the third is never attempted. -/
theorem C5_alternatives_stop_at_first_success :
    (∀ (attachOk : String × String → Bool) (l : List (String × String)),
      start_probe_attempts attachOk l =
        l.takeWhile (fun a => !(attachOk a)) ++
          (l.dropWhile (fun a => !(attachOk a))).take 1) ∧
    (∀ attachOk : String × String → Bool,
      attachOk ("on_kill_css", "css_clear_dir") = true →
      (start_probe_attempts attachOk kill_kss_probe_alternatives.alternatives).count
        ("on_cgroup_destroy_locked", "cgroup_destroy_locked") = 0) := by
  refine ⟨start_probe_attempts_eq, ?_⟩
  intro ok h
  by_cases h1 : ok ("on_kill_css", "kill_css") <;>
    simp [kill_kss_probe_alternatives, start_probe_attempts, h1, h] <;> decide

theorem C5_alternatives_stop_at_first_success_witness :
    (fun a => a == ("on_kill_css", "css_clear_dir") : String × String → Bool)
        ("on_kill_css", "css_clear_dir") = true ∧
    (start_probe_attempts (fun a => a == ("on_kill_css", "css_clear_dir"))
        kill_kss_probe_alternatives.alternatives).count
      ("on_cgroup_destroy_locked", "cgroup_destroy_locked") = 0 :=
  ⟨by decide, C5_alternatives_stop_at_first_success.2 _ (by decide)⟩

/-- **C6**: over any run of `trigger_existing_cgroup_probe` started from any
object state, `close_dir_error_count_` grows by exactly the number of failed
`closedir` calls of the run (one per reported failure, nothing on a
successful close); it is monotonically non-decreasing over the object's
lifetime; and `closedir` outcomes never abort or alter the traversal: the
visit, marker-open and push sequences are unchanged when every close is made
to succeed. -/
theorem C6_close_error_counter (f p : String) (t : FsTree) (s : WalkState) :
    (trigger_existing_cgroup_probe p f t s).close_dir_error_count =
      s.close_dir_error_count +
        ((trigger_existing_cgroup_probe p f t initState).closeEvents.count false) ∧
    s.close_dir_error_count ≤
      (trigger_existing_cgroup_probe p f t s).close_dir_error_count ∧
    (trigger_existing_cgroup_probe p f t.scrubClose initState).visited =
      (trigger_existing_cgroup_probe p f t initState).visited ∧
    (trigger_existing_cgroup_probe p f t.scrubClose initState).markerAttempts =
      (trigger_existing_cgroup_probe p f t initState).markerAttempts ∧
    (trigger_existing_cgroup_probe p f t.scrubClose initState).pushedNames =
      (trigger_existing_cgroup_probe p f t initState).pushedNames := by
  have h1 : (trigger_existing_cgroup_probe p f t s).close_dir_error_count =
      s.close_dir_error_count +
        ((trigger_existing_cgroup_probe p f t initState).closeEvents.count false) :=
    walkLoop_closeErr_delta f [(p, t)] s
  have h2 := walkRun_scrub_obs f [(p, t)]
  rw [show scrubCloseStack [(p, t)] = [(p, t.scrubClose)] from rfl] at h2
  refine ⟨h1, ?_, h2.1, h2.2.1, h2.2.2⟩
  rw [h1]
  exact Nat.le_add_right _ _

/-- **C7**: every constructor trace — for every `stat` oracle and every
kernel version — detaches the v1 existing-trigger probe
`cgroup_clone_children_read` exactly once, after all v1 backfill activity
and before any cgroup-v2 phase action (the v2 probe attachments, the v2
backfill, and the v2 detachments). -/
theorem C7_v1_cleanup_unconditional_and_ordered (stat : String → Option FileKind)
    (kernel_version : String) :
    ∃ pre post,
      CgroupProber_constructor stat kernel_version =
        pre ++ SeqAction.cleanupProbe "cgroup_clone_children_read" :: post ∧
      pre.countP isCleanupCloneChildrenRead = 0 ∧
      post.countP isCleanupCloneChildrenRead = 0 ∧
      post.countP isV1Backfill = 0 ∧
      pre.countP isV2PhaseAction = 0 := by
  refine ⟨[SeqAction.startProbeAlts "kill css", SeqAction.periodicCb,
      SeqAction.startProbeAlts "css populate dir", SeqAction.periodicCb,
      SeqAction.startProbe "on_cgroup_clone_children_read" "cgroup_clone_children_read",
      SeqAction.startProbe "on_cgroup_attach_task" "cgroup_attach_task",
      SeqAction.periodicCb, SeqAction.checkCb "cgroup prober startup"]
    ++ (if find_cgroup_v1_mountpoint stat = "" then []
        else [SeqAction.backfill (find_cgroup_v1_mountpoint stat) "cgroup.clone_children",
              SeqAction.checkCb "trigger_cgroup_clone_children_read()"]),
    (if cppStrGe kernel_version cgroup_v2_first_kernel_version then
        [SeqAction.startProbe "on_cgroup_control" "cgroup_control",
         SeqAction.startKretprobe "onret_cgroup_control" "cgroup_control"]
        ++ (if find_cgroup_v2_mountpoint stat = "" then []
            else [SeqAction.backfill (find_cgroup_v2_mountpoint stat) "cgroup.controllers",
                  SeqAction.checkCb "trigger_cgroup_control()"])
        ++ [SeqAction.cleanupKretprobe "cgroup_control",
            SeqAction.cleanupProbe "cgroup_control"]
      else [])
    ++ [SeqAction.periodicCb, SeqAction.checkCb "cgroup prober cleanup()"],
    ?_, ?_, ?_, ?_, ?_⟩
  · by_cases h1 : find_cgroup_v1_mountpoint stat = "" <;>
    by_cases h2 : cppStrGe kernel_version cgroup_v2_first_kernel_version <;>
    by_cases h3 : find_cgroup_v2_mountpoint stat = "" <;>
      simp [CgroupProber_constructor, h1, h2, h3]
  · by_cases h1 : find_cgroup_v1_mountpoint stat = "" <;>
      simp [h1, List.countP_append, List.countP_cons, isCleanupCloneChildrenRead]
  · by_cases h2 : cppStrGe kernel_version cgroup_v2_first_kernel_version <;>
    by_cases h3 : find_cgroup_v2_mountpoint stat = "" <;>
      simp [h2, h3, List.countP_append, List.countP_cons, isCleanupCloneChildrenRead]
  · by_cases h2 : cppStrGe kernel_version cgroup_v2_first_kernel_version <;>
    by_cases h3 : find_cgroup_v2_mountpoint stat = "" <;>
      simp [h2, h3, List.countP_append, List.countP_cons, isV1Backfill]
  · by_cases h1 : find_cgroup_v1_mountpoint stat = "" <;>
      simp [h1, List.countP_append, List.countP_cons, isV2PhaseAction]

/-- **C8**: during every traversal, directory entries named "." or ".." are
never pushed onto the traversal stack. -/
theorem C8_dot_entries_never_pushed (f p : String) (t : FsTree) :
    (trigger_existing_cgroup_probe p f t initState).pushedNames.count "." = 0 ∧
    (trigger_existing_cgroup_probe p f t initState).pushedNames.count ".." = 0 :=
  walkRun_pushed_count_dot f [(p, t)]

/-- **C9**: on the synthetic hierarchy `/t/cgA` with single child
`/t/cgA/cgA1`, each containing a readable regular `cgroup.clone_children`
file, the walker opens each of the two marker files exactly once and the
close-error counter ends at zero (all closes succeed). -/
theorem C9_end_to_end_cgA :
    (trigger_existing_cgroup_probe "/t/cgA" "cgroup.clone_children" cgA_tree
        initState).markerAttempts =
      ["/t/cgA/cgroup.clone_children", "/t/cgA/cgA1/cgroup.clone_children"] ∧
    (trigger_existing_cgroup_probe "/t/cgA" "cgroup.clone_children" cgA_tree
        initState).markerAttempts.count "/t/cgA/cgroup.clone_children" = 1 ∧
    (trigger_existing_cgroup_probe "/t/cgA" "cgroup.clone_children" cgA_tree
        initState).markerAttempts.count "/t/cgA/cgA1/cgroup.clone_children" = 1 ∧
    (trigger_existing_cgroup_probe "/t/cgA" "cgroup.clone_children" cgA_tree
        initState).close_dir_error_count = 0 := by
  have hrun : trigger_existing_cgroup_probe "/t/cgA" "cgroup.clone_children" cgA_tree
      initState =
      ⟨["/t/cgA", "/t/cgA/cgA1"],
       ["/t/cgA/cgroup.clone_children", "/t/cgA/cgA1/cgroup.clone_children"],
       ["cgA1"], [true, true], 0⟩ := by
    simp [trigger_existing_cgroup_probe, cgA_tree, cgA1_tree, initState, pushList,
      walkLoop_cons_success, walkLoop_nil, FsTree.name, FsTree.info]
  rw [hrun]
  refine ⟨rfl, ?_, ?_, rfl⟩ <;> decide

/-- **C10**: the walker pushes an entry only when `readdir` reports its
`d_type` as exactly `DT_DIR`: every visited path lies among the
`DT_DIR`-reachable node paths, and on the concrete tree whose root holds a
symlink entry (`DT_LNK`) and a `DT_UNKNOWN` entry — each denoting a
directory with a subdirectory — plus one genuine `DT_DIR` child, only the
root and that child are visited and only the child is pushed; the symlink's
and unknown entry's subtrees are never entered. -/
theorem C10_only_dtdir_entries_descended :
    (∀ (f p : String) (t : FsTree),
      ∀ a ∈ (trigger_existing_cgroup_probe p f t initState).visited,
        a ∈ dirPaths p t) ∧
    (trigger_existing_cgroup_probe "/x" "m" c10_tree initState).visited =
      ["/x", "/x/child"] ∧
    (trigger_existing_cgroup_probe "/x" "m" c10_tree initState).pushedNames =
      ["child"] := by
  refine ⟨?_, ?_, ?_⟩
  · intro f p t a ha
    have hsub : a ∈ stackPaths [(p, t)] := walkRun_visited_subset f [(p, t)] ha
    simpa [stackPaths] using hsub
  · simp [trigger_existing_cgroup_probe, c10_tree, initState, pushList,
      walkLoop_cons_success, walkLoop_nil, FsTree.name, FsTree.info]
  · simp [trigger_existing_cgroup_probe, c10_tree, initState, pushList,
      walkLoop_cons_success, walkLoop_nil, FsTree.name, FsTree.info]

theorem C10_only_dtdir_entries_descended_witness :
    "/x" ∈ (trigger_existing_cgroup_probe "/x" "m" c10_tree initState).visited ∧
    "/x" ∈ dirPaths "/x" c10_tree := by
  have hv : (trigger_existing_cgroup_probe "/x" "m" c10_tree initState).visited =
      ["/x", "/x/child"] := by
    simp [trigger_existing_cgroup_probe, c10_tree, initState, pushList,
      walkLoop_cons_success, walkLoop_nil, FsTree.name, FsTree.info]
  have hmem : "/x" ∈ (trigger_existing_cgroup_probe "/x" "m" c10_tree initState).visited := by
    rw [hv]; decide
  exact ⟨hmem, C10_only_dtdir_entries_descended.1 "m" "/x" c10_tree "/x" hmem⟩

/-- **C2**: the gate `host_info_.kernel_version >= "4.6"` is a C++
`std::string` lexicographic comparison.  It realizes the boundary correctly
("4.6" attempts, "4.5" skips) but not numeric version ordering: for kernel
versions "4.10" and "10.0" — numerically at least 4.6 — the comparison is
false and the entire cgroup-v2 phase (probe attachment, mountpoint lookup,
backfill, detachment) is skipped, for every filesystem state; at "4.6" the
v2 phase is attempted. -/
theorem C2_version_gate_is_lexicographic :
    cppStrGe "4.6" "4.6" = true ∧
    cppStrGe "4.5" "4.6" = false ∧
    cppStrGe "4.7" "4.6" = true ∧
    cppStrGe "4.10" "4.6" = false ∧
    cppStrGe "10.0" "4.6" = false ∧
    (∀ stat, (CgroupProber_constructor stat "4.10").countP isV2PhaseAction = 0) ∧
    (∀ stat, (CgroupProber_constructor stat "10.0").countP isV2PhaseAction = 0) ∧
    (∀ stat, 4 ≤ (CgroupProber_constructor stat "4.6").countP isV2PhaseAction) := by
  refine ⟨by decide, by decide, by decide, by decide, by decide, ?_, ?_, ?_⟩
  · intro stat
    by_cases h1 : find_cgroup_v1_mountpoint stat = "" <;>
      simp [CgroupProber_constructor, h1, cgroup_v2_first_kernel_version,
        show cppStrGe "4.10" "4.6" = false from by decide,
        List.countP_append, List.countP_cons, isV2PhaseAction]
  · intro stat
    by_cases h1 : find_cgroup_v1_mountpoint stat = "" <;>
      simp [CgroupProber_constructor, h1, cgroup_v2_first_kernel_version,
        show cppStrGe "10.0" "4.6" = false from by decide,
        List.countP_append, List.countP_cons, isV2PhaseAction]
  · intro stat
    by_cases h1 : find_cgroup_v1_mountpoint stat = "" <;>
    by_cases h3 : find_cgroup_v2_mountpoint stat = "" <;>
      simp [CgroupProber_constructor, h1, h3, cgroup_v2_first_kernel_version,
        show cppStrGe "4.6" "4.6" = true from by decide,
        List.countP_append, List.countP_cons, isV2PhaseAction]
